import Mathlib

/-!
Shallow embedding of the shulib-path-planner core
(`path_planner/core/models.py`, `undo.py`, `coordinates.py`, `geomtry.py`,
`commands.py`) together with the code-generation pipeline of §4.4 of the
specification (whose implementation module `io/export_cpp.py` is absent
from the source tree and is therefore modelled from the spec).

Python floats are modelled as exact rationals (ℚ) in the data-model and
coordinate-transform layers, and as real numbers (ℝ) in the geometry
layer where square roots and arctangents occur.  Python dicts produced
and consumed by `to_dict` / `from_dict` are modelled as records whose
optional keys are `Option`-valued (a `dict.get` with a default becomes
`Option.getD`); a `from_dict` that can raise `ValueError`/`KeyError`
returns an `Option`.
-/

namespace PathPlanner

/-- `MotionType` enum from `core/models.py`. -/
inductive MotionType where
  | START
  | MOVE_TO_POSE
  | MOVE_VERTICAL
  | ROTATE_TO
deriving DecidableEq, Repr

/-- The `.value` string of each `MotionType` member. -/
def MotionType.value : MotionType → String
  | .START => "start"
  | .MOVE_TO_POSE => "moveToPose"
  | .MOVE_VERTICAL => "moveVertical"
  | .ROTATE_TO => "rotateTo"

/-- `MotionType(s)`: enum lookup by value; `none` models a raised `ValueError`. -/
def MotionType.ofValue (s : String) : Option MotionType :=
  if s = "start" then some .START
  else if s = "moveToPose" then some .MOVE_TO_POSE
  else if s = "moveVertical" then some .MOVE_VERTICAL
  else if s = "rotateTo" then some .ROTATE_TO
  else none

/-- `HeadingMode` enum from `core/models.py`. -/
inductive HeadingMode where
  | AUTO
  | MANUAL
deriving DecidableEq, Repr

/-- The `.value` string of each `HeadingMode` member. -/
def HeadingMode.value : HeadingMode → String
  | .AUTO => "auto"
  | .MANUAL => "manual"

/-- `HeadingMode(s)`: enum lookup by value. -/
def HeadingMode.ofValue (s : String) : Option HeadingMode :=
  if s = "auto" then some .AUTO
  else if s = "manual" then some .MANUAL
  else none

/-- `Side` enum from `core/models.py`. -/
inductive Side where
  | LEFT
  | RIGHT
  | FULL
deriving DecidableEq, Repr

/-- The `.value` string of each `Side` member. -/
def Side.value : Side → String
  | .LEFT => "left"
  | .RIGHT => "right"
  | .FULL => "full"

/-- `Side(s)`: enum lookup by value. -/
def Side.ofValue (s : String) : Option Side :=
  if s = "left" then some .LEFT
  else if s = "right" then some .RIGHT
  else if s = "full" then some .FULL
  else none

/-- `Alliance` enum from `core/models.py`. -/
inductive Alliance where
  | RED
  | BLUE
deriving DecidableEq, Repr

/-- The `.value` string of each `Alliance` member. -/
def Alliance.value : Alliance → String
  | .RED => "red"
  | .BLUE => "blue"

/-- `Alliance(s)`: enum lookup by value. -/
def Alliance.ofValue (s : String) : Option Alliance :=
  if s = "red" then some .RED
  else if s = "blue" then some .BLUE
  else none

/-- The `Waypoint` dataclass from `core/models.py` (floats as ℚ). -/
structure Waypoint where
  x : ℚ
  y : ℚ
  heading : Option ℚ := none
  heading_mode : HeadingMode := .AUTO
  motion_type : MotionType := .MOVE_TO_POSE
  reverse : Bool := false
  intaking : Bool := false
  conveyor : Bool := false
  commands_after : List String := []
deriving DecidableEq, Repr

/-- The dictionary produced by `Waypoint.to_dict` and consumed by
`Waypoint.from_dict`.  Keys that `from_dict` reads with `data.get`
(absent key collapses to the default) are `Option`-valued; `x` and `y`
are accessed with `data["x"]`/`data["y"]` and are required. -/
structure WaypointDict where
  x : ℚ
  y : ℚ
  heading : Option ℚ
  heading_mode : Option String
  motion_type : Option String
  reverse : Option Bool
  intaking : Option Bool
  conveyor : Option Bool
  commands_after : Option (List String)
deriving DecidableEq, Repr

/-- `Waypoint.to_dict` from `core/models.py`: every key is written. -/
def Waypoint.to_dict (w : Waypoint) : WaypointDict where
  x := w.x
  y := w.y
  heading := w.heading
  heading_mode := some w.heading_mode.value
  motion_type := some w.motion_type.value
  reverse := some w.reverse
  intaking := some w.intaking
  conveyor := some w.conveyor
  commands_after := some w.commands_after

/-- `Waypoint.from_dict` from `core/models.py`.  `none` models the
`ValueError` raised by an unknown enum value. -/
def Waypoint.from_dict (d : WaypointDict) : Option Waypoint := do
  let hm ← HeadingMode.ofValue (d.heading_mode.getD "auto")
  let mt ← MotionType.ofValue (d.motion_type.getD "moveToPose")
  pure {
    x := d.x
    y := d.y
    heading := d.heading
    heading_mode := hm
    motion_type := mt
    reverse := d.reverse.getD false
    intaking := d.intaking.getD false
    conveyor := d.conveyor.getD false
    commands_after := d.commands_after.getD [] }

/-- The `Path` dataclass from `core/models.py`. -/
structure Path where
  name : String
  alliance : Alliance := .RED
  side : Side := .LEFT
  waypoints : List Waypoint := []
deriving DecidableEq, Repr

/-- `Path.add_waypoint`: appends a waypoint whose motion type is START
iff the list was empty, and returns the new index. -/
def Path.add_waypoint (p : Path) (x y : ℚ) : Path × ℕ :=
  let motion := if p.waypoints.length = 0 then MotionType.START else MotionType.MOVE_TO_POSE
  let wp : Waypoint := { x := x, y := y, motion_type := motion }
  ({ p with waypoints := p.waypoints ++ [wp] }, (p.waypoints ++ [wp]).length - 1)

/-- Set the first waypoint's motion type to START (the promotion step
inside `Path.remove_waypoint`). -/
def promoteFirst : List Waypoint → List Waypoint
  | [] => []
  | w :: ws => { w with motion_type := MotionType.START } :: ws

/-- `Path.remove_waypoint`: no-op when the (Python `int`) index is out of
range; otherwise removes it and, when index 0 was removed and waypoints
remain, promotes the new first waypoint to START. -/
def Path.remove_waypoint (p : Path) (index : ℤ) : Path :=
  if 0 ≤ index ∧ index < p.waypoints.length then
    if index = 0 ∧ (p.waypoints.eraseIdx index.toNat).length > 0 then
      { p with waypoints := promoteFirst (p.waypoints.eraseIdx index.toNat) }
    else
      { p with waypoints := p.waypoints.eraseIdx index.toNat }
  else
    p

/-- `Path.is_valid_position` from `core/models.py`. -/
def Path.is_valid_position (p : Path) (x _y : ℚ) : Bool :=
  match p.side with
  | .FULL => true
  | .LEFT => x ≤ 0
  | .RIGHT => x ≥ 0

/-- The dictionary produced by `Path.to_dict` / consumed by `Path.from_dict`. -/
structure PathDict where
  name : String
  alliance : Option String
  side : Option String
  waypoints : Option (List WaypointDict)
deriving DecidableEq, Repr

/-- `Path.to_dict` from `core/models.py`. -/
def Path.to_dict (p : Path) : PathDict where
  name := p.name
  alliance := some p.alliance.value
  side := some p.side.value
  waypoints := some (p.waypoints.map Waypoint.to_dict)

/-- `Path.from_dict` from `core/models.py`. -/
def Path.from_dict (d : PathDict) : Option Path := do
  let alliance ← Alliance.ofValue (d.alliance.getD "red")
  let side ← Side.ofValue (d.side.getD "left")
  let ws ← (d.waypoints.getD []).mapM Waypoint.from_dict
  pure { name := d.name, alliance := alliance, side := side, waypoints := ws }

/-- The `Project` dataclass from `core/models.py`. -/
structure Project where
  season : String := "pushback_2026"
  paths : List Path := []
deriving DecidableEq, Repr

/-- The dictionary produced by `Project.to_dict` / consumed by
`Project.from_dict` (`version` is written but never read back). -/
structure ProjectDict where
  version : String
  season : Option String
  paths : Option (List PathDict)
deriving DecidableEq, Repr

/-- `Project.to_dict` from `core/models.py`. -/
def Project.to_dict (p : Project) : ProjectDict where
  version := "1.0.0"
  season := some p.season
  paths := some (p.paths.map Path.to_dict)

/-- `Project.from_dict` from `core/models.py`. -/
def Project.from_dict (d : ProjectDict) : Option Project := do
  let ps ← (d.paths.getD []).mapM Path.from_dict
  pure { season := d.season.getD "pushback_2026", paths := ps }

/-- The `UndoState` dataclass from `core/undo.py`. -/
structure UndoState (α : Type) where
  description : String
  state : α
deriving DecidableEq, Repr

/-- The mutable fields of `UndoManager` from `core/undo.py` (the observer
callback list is presentation-shell plumbing with no effect on the
stacks and is not modelled). -/
structure UndoManager (α : Type) where
  max_history : ℕ
  undo_stack : List (UndoState α)
  redo_stack : List (UndoState α)
deriving DecidableEq, Repr

/-- `UndoManager.__init__`: empty stacks. -/
def UndoManager.init (α : Type) (max_history : ℕ := 50) : UndoManager α :=
  { max_history := max_history, undo_stack := [], redo_stack := [] }

/-- The `while len(undo_stack) > max_history: undo_stack.pop(0)` loop of
`UndoManager.save_state`. -/
def trimOldest (max_history : ℕ) (l : List (UndoState α)) : List (UndoState α) :=
  if l.length > max_history then trimOldest max_history l.tail else l
termination_by l.length
decreasing_by
  cases l with
  | nil => simp at *
  | cons a t => simp

/-- `UndoManager.save_state`: push a snapshot (deep copy is identity on
immutable Lean values), clear the redo stack, trim the undo stack from
the oldest end down to `max_history`. -/
def UndoManager.save_state (m : UndoManager α) (state : α) (description : String := "Edit") :
    UndoManager α :=
  { m with
    undo_stack := trimOldest m.max_history (m.undo_stack ++ [⟨description, state⟩])
    redo_stack := [] }

/-- `UndoManager.can_undo`: at least two entries (current + previous). -/
def UndoManager.can_undo (m : UndoManager α) : Bool :=
  m.undo_stack.length > 1

/-- `UndoManager.can_redo`. -/
def UndoManager.can_redo (m : UndoManager α) : Bool :=
  m.redo_stack.length > 0

/-- `UndoManager.undo`: returns the restored state (if any) and the
updated manager. -/
def UndoManager.undo (m : UndoManager α) : Option α × UndoManager α :=
  if m.can_undo then
    match m.undo_stack.getLast? with
    | some current =>
      let undo' := m.undo_stack.dropLast
      let m' := { m with undo_stack := undo', redo_stack := m.redo_stack ++ [current] }
      (undo'.getLast?.map UndoState.state, m')
    | none => (none, m)
  else
    (none, m)

/-- `UndoManager.redo`: returns the restored state (if any) and the
updated manager. -/
def UndoManager.redo (m : UndoManager α) : Option α × UndoManager α :=
  if m.can_redo then
    match m.redo_stack.getLast? with
    | some st =>
      (some st.state,
       { m with undo_stack := m.undo_stack ++ [st], redo_stack := m.redo_stack.dropLast })
    | none => (none, m)
  else
    (none, m)

/-! ## Coordinate transforms (`core/coordinates.py`), floats as ℚ -/

/-- `FIELD_SIZE_INCHES` constant. -/
def FIELD_SIZE_INCHES : ℚ := 144

/-- `FIELD_HALF_SIZE` constant. -/
def FIELD_HALF_SIZE : ℚ := 72

/-- `CoordinateSystem`: its constructor stores `canvas_size` and the
derived `scale = canvas_size / FIELD_SIZE_INCHES`. -/
structure CoordinateSystem where
  canvas_size : ℤ
deriving DecidableEq, Repr

/-- The `scale` attribute computed in `CoordinateSystem.__init__`. -/
def CoordinateSystem.scale (cs : CoordinateSystem) : ℚ :=
  (cs.canvas_size : ℚ) / FIELD_SIZE_INCHES

/-- `CoordinateSystem.field_to_canvas`. -/
def CoordinateSystem.field_to_canvas (cs : CoordinateSystem) (field_x field_y : ℚ) : ℚ × ℚ :=
  ((field_x + FIELD_HALF_SIZE) * cs.scale, (FIELD_HALF_SIZE - field_y) * cs.scale)

/-- `CoordinateSystem.canvas_to_field`. -/
def CoordinateSystem.canvas_to_field (cs : CoordinateSystem) (canvas_x canvas_y : ℚ) : ℚ × ℚ :=
  (canvas_x / cs.scale - FIELD_HALF_SIZE, FIELD_HALF_SIZE - canvas_y / cs.scale)

/-! ## Geometry (`core/geomtry.py`), floats as ℝ -/

/-- The `Point` dataclass from `core/geomtry.py`. -/
structure Point where
  x : ℝ
  y : ℝ

/-- `Point.__add__`. -/
instance : Add Point := ⟨fun p q => ⟨p.x + q.x, p.y + q.y⟩⟩

/-- `Point.__mul__` / `__rmul__` (scalar multiplication). -/
instance : SMul ℝ Point := ⟨fun c p => ⟨c * p.x, c * p.y⟩⟩

theorem Point.add_def (p q : Point) : p + q = ⟨p.x + q.x, p.y + q.y⟩ := rfl

theorem Point.smul_def (c : ℝ) (p : Point) : c • p = ⟨c * p.x, c * p.y⟩ := rfl

/-- `Point.distance_to` from `core/geomtry.py`. -/
noncomputable def Point.distance_to (p other : Point) : ℝ :=
  Real.sqrt ((p.x - other.x) ^ 2 + (p.y - other.y) ^ 2)

/-- `quadratic_bezier` from `core/geomtry.py`:
`B(t) = (1-t)²P0 + 2(1-t)tP1 + t²P2`. -/
def quadratic_bezier (p0 p1 p2 : Point) (t : ℝ) : Point :=
  let one_minus_t := 1 - t
  (one_minus_t * one_minus_t) • p0 + (2 * one_minus_t * t) • p1 + (t * t) • p2

/-- Python `int(x)` on a float: truncation toward zero. -/
noncomputable def pythonInt (x : ℝ) : ℤ :=
  if 0 ≤ x then ⌊x⌋ else ⌈x⌉

/-- `decompose_quadratic_bezier` from `core/geomtry.py`: sample at
`t = i / num_segments` for `i` in `range(num_segments + 1)` (the
Python `int` argument is modelled as ℤ; `range` of a non-positive
bound is empty). -/
noncomputable def decompose_quadratic_bezier (p0 p1 p2 : Point) (num_segments : ℤ) :
    List Point :=
  (List.range (num_segments + 1).toNat).map
    (fun (i : ℕ) => quadratic_bezier p0 p1 p2 ((i : ℝ) / (num_segments : ℝ)))

/-- The `num_segments` computed inside `adaptive_decompose_quadratic`:
`max(min_segments, min(max_segments, int(rough_length / max_segment_length)))`
where `rough_length` is the control-polygon length. -/
noncomputable def adaptiveSegCount (p0 p1 p2 : Point) (max_segment_length : ℝ)
    (min_segments max_segments : ℤ) : ℤ :=
  max min_segments (min max_segments
    (pythonInt ((p0.distance_to p1 + p1.distance_to p2) / max_segment_length)))

/-- `adaptive_decompose_quadratic` from `core/geomtry.py`. -/
noncomputable def adaptive_decompose_quadratic (p0 p1 p2 : Point)
    (max_segment_length : ℝ) (min_segments max_segments : ℤ) : List Point :=
  decompose_quadratic_bezier p0 p1 p2
    (adaptiveSegCount p0 p1 p2 max_segment_length min_segments max_segments)

/-- `math.atan2(y, x)`, modelled as the argument of the complex number
`x + y·i`; range `(-π, π]`, and `atan2 0 0 = 0` as in Python. -/
noncomputable def atan2 (y x : ℝ) : ℝ :=
  Complex.arg ⟨x, y⟩

/-- `math.degrees`. -/
noncomputable def degrees (r : ℝ) : ℝ :=
  r * 180 / Real.pi

/-- `calculate_heading` from `core/coordinates.py`:
`angle = degrees(atan2(dx, dy))`, plus 360 when negative. -/
noncomputable def calculate_heading (from_x from_y to_x to_y : ℝ) : ℝ :=
  if degrees (atan2 (to_x - from_x) (to_y - from_y)) < 0 then
    degrees (atan2 (to_x - from_x) (to_y - from_y)) + 360
  else
    degrees (atan2 (to_x - from_x) (to_y - from_y))

/-! ## Command registry (`core/commands.py`) -/

/-- The `CommandParameter` dataclass from `core/commands.py` (the
untyped `default` is modelled by its rendered string form, which is all
`generate_code` uses). -/
structure CommandParameter where
  name : String
  type : String
  default : String
  min_val : Option ℚ := none
  max_val : Option ℚ := none
  description : String := ""
deriving DecidableEq, Repr

/-- The `Command` dataclass from `core/commands.py`. -/
structure Command where
  id : String
  name : String
  code_template : String
  color : String := "#FFFFFF"
  category : String := "Misc"
  description : String := ""
  parameters : List CommandParameter := []
deriving DecidableEq, Repr

/-- `Command.generate_code` from `core/commands.py`: literal substring
substitution of each `\x7bname\x7d` token by the rendered value. -/
def Command.generate_code (c : Command) (param_values : List (String × String)) : String :=
  param_values.foldl
    (fun code pv => code.replace ("\x7b" ++ pv.1 ++ "\x7d") pv.2)
    c.code_template

/-! ## Code generation pipeline (§4.4 of the spec)

The module `path_planner/io/export_cpp.py` providing
`export_path_to_cpp` is imported by `ui/main_window.py` but absent from
the source tree, so the pipeline below is modelled from the spec. -/

/-- Render a rational as a code literal. -/
def ratStr (q : ℚ) : String :=
  if q.den = 1 then toString q.num else toString q.num ++ "/" ++ toString q.den

/-- Render a boolean as a C++ literal. -/
def boolStr (b : Bool) : String :=
  if b then "true" else "false"

/-- Modelled from the spec: the effective heading of a waypoint (§4.4
rule 1) rendered as code text.  MANUAL uses the stored value; AUTO uses
the bearing toward the next waypoint, written as the normalized atan2
expression the spec's §8 scenario displays; the last waypoint in AUTO
mode reuses the previous computed heading (§4.4 policy).  The invalid
(MANUAL, unset) combination, which §9 notes the data model should rule
out, falls back to the AUTO rule. -/
def headingExpr (w : Waypoint) (next? : Option Waypoint) (prev : String) : String :=
  match w.heading_mode, w.heading with
  | .MANUAL, some h => ratStr h
  | _, _ =>
    match next? with
    | some n =>
      "normalizeAngle(atan2(" ++ ratStr (n.x - w.x) ++ ", " ++ ratStr (n.y - w.y) ++ "))"
    | none => prev

/-- Modelled from the spec: the motion statement of a waypoint (§4.4
rule 2), assembled from the waypoint's public fields per motion type,
with the boolean flags passed through as call arguments. -/
def motionStatement (w : Waypoint) (h : String) : String :=
  match w.motion_type with
  | .START =>
    "chassis.setPose(" ++ ratStr w.x ++ ", " ++ ratStr w.y ++ ", " ++ h ++ ");"
  | .MOVE_TO_POSE =>
    "chassis.moveToPose(" ++ ratStr w.x ++ ", " ++ ratStr w.y ++ ", " ++ h ++ ", " ++
      boolStr w.reverse ++ ", " ++ boolStr w.intaking ++ ", " ++ boolStr w.conveyor ++ ");"
  | .MOVE_VERTICAL =>
    "chassis.moveVertical(" ++ ratStr w.x ++ ", " ++ ratStr w.y ++ ", " ++
      boolStr w.reverse ++ ");"
  | .ROTATE_TO =>
    "chassis.rotateTo(" ++ h ++ ");"

/-- Modelled from the spec: resolve one attached command id (§4.4 rule 3)
against the registry; a resolved command renders its template with its
parameters' default values, an unresolved id degrades to a visible
placeholder comment. -/
def renderCommand (registry : List (String × Command)) (id : String) : String :=
  match List.lookup id registry with
  | some c => c.generate_code (c.parameters.map (fun p => (p.name, p.default)))
  | none => "// unknown command: " ++ id

/-- Modelled from the spec: one text block per waypoint — the motion
statement followed by the rendered `commands_after`, in list order,
carrying the previously computed heading for the last-waypoint AUTO
policy. -/
def generateBlocks (registry : List (String × Command)) :
    List Waypoint → String → List String
  | [], _ => []
  | w :: rest, prev =>
    let h := headingExpr w rest.head? prev
    String.intercalate "\n" (motionStatement w h :: w.commands_after.map (renderCommand registry))
      :: generateBlocks registry rest h

/-- Modelled from the spec: `export_path_to_cpp` from the missing
`io/export_cpp.py` — a single ordered text listing, one section per
waypoint, concatenated in waypoint order (§4.4). -/
def export_path_to_cpp (path : Path) (registry : List (String × Command)) : String :=
  String.intercalate "\n" (generateBlocks registry path.waypoints "0")

/-! ## Operation sequences on a Path (claim C1) -/

/-- One public editing operation on a `Path`. -/
inductive PathOp where
  | add (x y : ℚ)
  | remove (index : ℤ)
deriving DecidableEq, Repr

/-- Apply one operation (the index returned by `add_waypoint` is
discarded by the editing loop). -/
def applyOp (p : Path) (op : PathOp) : Path :=
  match op with
  | .add x y => (p.add_waypoint x y).1
  | .remove i => p.remove_waypoint i

/-- Run a finite sequence of add/remove operations. -/
def runOps (p : Path) (ops : List PathOp) : Path :=
  ops.foldl applyOp p

/-- A fresh, empty path as `Path(name=...)` constructs it. -/
def pathNew (name : String) : Path :=
  { name := name }

/-- The START structural invariant: the first waypoint (if any) has
motion type START and no later waypoint does. -/
def startOk : List Waypoint → Prop
  | [] => True
  | w :: rest => w.motion_type = MotionType.START ∧ ∀ v ∈ rest, v.motion_type ≠ MotionType.START

/-- Number of waypoints with motion type START. -/
def countStart (ws : List Waypoint) : ℕ :=
  ws.countP (fun w => decide (w.motion_type = MotionType.START))

theorem startOk_add (p : Path) (x y : ℚ) (h : startOk p.waypoints) :
    startOk ((p.add_waypoint x y).1).waypoints := by
  unfold Path.add_waypoint
  cases hw : p.waypoints with
  | nil => simp [startOk]
  | cons w rest =>
    rw [hw] at h
    refine ⟨h.1, ?_⟩
    intro v hv
    rcases List.mem_append.mp hv with hv | hv
    · exact h.2 v hv
    · rcases List.mem_singleton.mp hv with rfl
      simp [hw]

theorem startOk_promoteFirst (ws : List Waypoint)
    (h : ∀ v ∈ ws.tail, v.motion_type ≠ MotionType.START) :
    startOk (promoteFirst ws) := by
  cases ws with
  | nil => trivial
  | cons w rest => exact ⟨rfl, h⟩

theorem startOk_remove (p : Path) (i : ℤ) (h : startOk p.waypoints) :
    startOk (p.remove_waypoint i).waypoints := by
  unfold Path.remove_waypoint
  split_ifs with hg hz
  · cases hw : p.waypoints with
    | nil =>
      exfalso
      rw [hw] at hg
      simp at hg
      omega
    | cons w rest =>
      rw [hw] at h
      have hi0 : i.toNat = 0 := by omega
      simp only [hi0, List.eraseIdx_cons_zero]
      exact startOk_promoteFirst rest (by
        intro v hv
        exact h.2 v (List.mem_of_mem_tail hv))
  · cases hw : p.waypoints with
    | nil => simp [List.eraseIdx, startOk]
    | cons w rest =>
      rw [hw] at h hz
      by_cases hi : i = 0
      · subst hi
        simp only [Int.toNat_zero, List.eraseIdx_cons_zero, not_and, gt_iff_lt,
          not_lt, Nat.le_zero] at hz ⊢
        have hz0 : rest.length = 0 := hz trivial
        rw [List.length_eq_zero.mp hz0]
        trivial
      · obtain ⟨k, hk⟩ : ∃ k : ℕ, i.toNat = k + 1 := ⟨i.toNat - 1, by omega⟩
        rw [hk, List.eraseIdx_cons_succ]
        refine ⟨h.1, ?_⟩
        intro v hv
        exact h.2 v (List.mem_of_mem_eraseIdx hv)
  · exact h

theorem startOk_runOps (p : Path) (ops : List PathOp) (h : startOk p.waypoints) :
    startOk (runOps p ops).waypoints := by
  induction ops generalizing p with
  | nil => exact h
  | cons op rest ih =>
    apply ih
    cases op with
    | add x y => exact startOk_add p x y h
    | remove i => exact startOk_remove p i h

theorem startOk_countStart (ws : List Waypoint) (h : startOk ws) : countStart ws ≤ 1 := by
  cases ws with
  | nil => simp [countStart]
  | cons w rest =>
    unfold countStart
    rw [List.countP_cons]
    have hz : rest.countP (fun w => decide (w.motion_type = MotionType.START)) = 0 := by
      rw [List.countP_eq_zero]
      intro v hv
      simpa using h.2 v hv
    rw [hz]
    split <;> simp

theorem startOk_head (ws : List Waypoint) (h : startOk ws) (w : Waypoint)
    (hw : ws.head? = some w) : w.motion_type = MotionType.START := by
  cases ws with
  | nil => simp at hw
  | cons a rest =>
    obtain rfl : a = w := by simpa using hw
    exact h.1

/-- C1: starting from an empty Path, any finite sequence of
`add_waypoint`/`remove_waypoint` calls leaves at most one waypoint with
motion type START, and the waypoint at index 0 (when the list is
non-empty) has motion type START. -/
theorem C1_path_start_invariant (p : Path) (hp : p.waypoints = []) (ops : List PathOp) :
    countStart (runOps p ops).waypoints ≤ 1 ∧
    ∀ w, (runOps p ops).waypoints.head? = some w → w.motion_type = MotionType.START := by
  have h0 : startOk p.waypoints := by
    rw [hp]
    trivial
  have h := startOk_runOps p ops h0
  exact ⟨startOk_countStart _ h, fun w hw => startOk_head _ h w hw⟩

/-- Witness for C1 at the concrete sequence
`add (0,0); add (1,1); remove 0` on a fresh path. -/
theorem C1_path_start_invariant_witness :
    countStart (runOps (pathNew "P") [PathOp.add 0 0, PathOp.add 1 1, PathOp.remove 0]).waypoints ≤ 1 ∧
    ({ x := 1, y := 1, motion_type := MotionType.START } : Waypoint).motion_type
      = MotionType.START :=
  ⟨(C1_path_start_invariant (pathNew "P") rfl _).1,
   (C1_path_start_invariant (pathNew "P") rfl
      [PathOp.add 0 0, PathOp.add 1 1, PathOp.remove 0]).2
     { x := 1, y := 1, motion_type := MotionType.START } (by decide)⟩

/-! ## Undo engine theorems (claims C3, C4, C10) -/

theorem trimOldest_eq_drop (max_history : ℕ) (l : List (UndoState α)) :
    trimOldest max_history l = l.drop (l.length - max_history) := by
  induction l with
  | nil => simp [trimOldest]
  | cons w t ih =>
    unfold trimOldest
    split_ifs with hl
    · rw [List.tail_cons, ih]
      have h1 : (w :: t).length - max_history = (t.length - max_history) + 1 := by
        simp only [List.length_cons, gt_iff_lt] at hl ⊢
        omega
      rw [h1, List.drop_succ_cons]
    · have h0 : (w :: t).length - max_history = 0 := by
        simp at hl ⊢
        omega
      rw [h0]
      simp

/-- Convenience: run a list of `(description, state)` saves in order. -/
def runSaves (m : UndoManager α) (saves : List (String × α)) : UndoManager α :=
  saves.foldl (fun acc sd => acc.save_state sd.2 sd.1) m

theorem save_state_undo_stack (m : UndoManager α) (s : α) (d : String) :
    (m.save_state s d).undo_stack
      = (m.undo_stack ++ [UndoState.mk d s]).drop ((m.undo_stack.length + 1) - m.max_history) := by
  unfold UndoManager.save_state
  rw [trimOldest_eq_drop]
  simp

theorem save_state_length_le (m : UndoManager α) (s : α) (d : String) :
    (m.save_state s d).undo_stack.length ≤ m.max_history := by
  rw [save_state_undo_stack]
  rw [List.length_drop]
  simp
  omega

theorem runSaves_max_history (m : UndoManager α) (saves : List (String × α)) :
    (runSaves m saves).max_history = m.max_history := by
  induction saves generalizing m with
  | nil => rfl
  | cons sd rest ih => exact (ih _).trans rfl

theorem runSaves_length_le (m : UndoManager α) (saves : List (String × α))
    (h : m.undo_stack.length ≤ m.max_history) :
    (runSaves m saves).undo_stack.length ≤ m.max_history := by
  induction saves generalizing m with
  | nil => exact h
  | cons sd rest ih =>
    have h1 := ih (m.save_state sd.2 sd.1) (save_state_length_le m sd.2 sd.1)
    exact h1

/-- C3: for an `UndoManager` of capacity `max_history`, any sequence of
`save_state` calls leaves `undo_stack` no longer than `max_history`, and
every save trims the stack by dropping from the oldest (front) end. -/
theorem C3_undo_history_bound {α : Type} (max_history : ℕ) (saves : List (String × α))
    (m : UndoManager α) (s : α) (d : String) :
    (runSaves (UndoManager.init α max_history) saves).undo_stack.length ≤ max_history ∧
    (m.save_state s d).undo_stack
      = (m.undo_stack ++ [UndoState.mk d s]).drop ((m.undo_stack.length + 1) - m.max_history) :=
  ⟨runSaves_length_le _ saves (by simp [UndoManager.init]),
   save_state_undo_stack m s d⟩

theorem undo_eq (m : UndoManager α) (current : UndoState α)
    (hcur : m.undo_stack.getLast? = some current) (hcan : m.can_undo = true) :
    m.undo = (m.undo_stack.dropLast.getLast?.map UndoState.state,
              { m with undo_stack := m.undo_stack.dropLast,
                       redo_stack := m.redo_stack ++ [current] }) := by
  unfold UndoManager.undo
  rw [hcan]
  simp [hcur]

theorem redo_eq (m : UndoManager α) (st : UndoState α)
    (hst : m.redo_stack.getLast? = some st) (hcan : m.can_redo = true) :
    m.redo = (some st.state,
              { m with undo_stack := m.undo_stack ++ [st],
                       redo_stack := m.redo_stack.dropLast }) := by
  unfold UndoManager.redo
  rw [hcan]
  simp [hst]

theorem can_undo_getLast (m : UndoManager α) (h : m.can_undo = true) :
    ∃ current, m.undo_stack.getLast? = some current := by
  have hne : m.undo_stack ≠ [] := by
    intro hnil
    simp [UndoManager.can_undo, hnil] at h
  exact ⟨m.undo_stack.getLast hne, List.getLast?_eq_getLast _ hne⟩

/-- C4: `undo()` is a no-op returning `None` unless `undo_stack` holds at
least two entries; with at least two entries it moves the top entry onto
`redo_stack` and returns (a copy of) the state of the new top of
`undo_stack`, which exists. -/
theorem C4_undo_requires_two_entries {α : Type} (m : UndoManager α) :
    (m.undo_stack.length < 2 → m.undo = (none, m)) ∧
    (2 ≤ m.undo_stack.length →
      ∃ current, m.undo_stack.getLast? = some current ∧
        m.undo = (m.undo_stack.dropLast.getLast?.map UndoState.state,
                  { m with undo_stack := m.undo_stack.dropLast,
                           redo_stack := m.redo_stack ++ [current] }) ∧
        (m.undo_stack.dropLast.getLast?.map UndoState.state).isSome = true) := by
  constructor
  · intro h2
    have hcan : m.can_undo = false := by
      simp only [UndoManager.can_undo, gt_iff_lt, decide_eq_false_iff_not, not_lt]
      omega
    unfold UndoManager.undo
    rw [hcan]
    simp
  · intro h2
    have hcan : m.can_undo = true := by
      simp only [UndoManager.can_undo, gt_iff_lt, decide_eq_true_eq]
      omega
    obtain ⟨current, hcur⟩ := can_undo_getLast m hcan
    refine ⟨current, hcur, undo_eq m current hcur hcan, ?_⟩
    have hne : m.undo_stack.dropLast ≠ [] := by
      have hlen : m.undo_stack.dropLast.length = m.undo_stack.length - 1 :=
        List.length_dropLast _
      intro hnil
      rw [hnil] at hlen
      simp at hlen
      omega
    obtain ⟨w, hw⟩ : ∃ w, m.undo_stack.dropLast.getLast? = some w :=
      ⟨_, List.getLast?_eq_getLast _ hne⟩
    rw [hw]
    rfl

/-- Witness for C4 on concrete managers: a one-entry manager refuses to
undo; a two-entry manager pops onto the redo stack and returns the
first state. -/
theorem C4_undo_requires_two_entries_witness :
    (({ max_history := 50, undo_stack := [⟨"a", (1 : ℕ)⟩], redo_stack := [] } :
        UndoManager ℕ).undo
      = (none, { max_history := 50, undo_stack := [⟨"a", (1 : ℕ)⟩], redo_stack := [] })) ∧
    (({ max_history := 50, undo_stack := [⟨"a", (1 : ℕ)⟩, ⟨"b", 2⟩], redo_stack := [] } :
        UndoManager ℕ).undo
      = (some 1, { max_history := 50, undo_stack := [⟨"a", (1 : ℕ)⟩],
                   redo_stack := [⟨"b", 2⟩] })) := by
  constructor
  · exact (C4_undo_requires_two_entries
      { max_history := 50, undo_stack := [⟨"a", (1 : ℕ)⟩], redo_stack := [] }).1 (by decide)
  · obtain ⟨current, hcur, heq, -⟩ := (C4_undo_requires_two_entries
      { max_history := 50, undo_stack := [⟨"a", (1 : ℕ)⟩, ⟨"b", 2⟩], redo_stack := [] }).2
      (by decide)
    obtain rfl : current = ⟨"b", 2⟩ := by simpa using hcur.symm
    simpa using heq

/-- C10: when `can_undo` holds, `undo()` followed immediately by
`redo()` returns the state that was on top of `undo_stack` before the
undo, and restores `undo_stack` to exactly its previous entries. -/
theorem C10_undo_redo_roundtrip {α : Type} (m : UndoManager α) (h : m.can_undo = true) :
    ((m.undo.2).redo).1 = m.undo_stack.getLast?.map UndoState.state ∧
    ((m.undo.2).redo).2.undo_stack = m.undo_stack := by
  obtain ⟨current, hcur⟩ := can_undo_getLast m h
  rw [undo_eq m current hcur h]
  have hcanr : ({ m with
      undo_stack := m.undo_stack.dropLast
      redo_stack := m.redo_stack ++ [current] } : UndoManager α).can_redo = true := by
    simp [UndoManager.can_redo]
  rw [redo_eq _ current (by simp) hcanr]
  have hne : m.undo_stack ≠ [] := by
    intro hnil
    rw [hnil] at hcur
    simp at hcur
  constructor
  · rw [hcur]
    rfl
  · have hgl : m.undo_stack.getLast hne = current := by
      have := List.getLast?_eq_getLast m.undo_stack hne
      rw [this] at hcur
      exact Option.some_injective _ hcur
    calc m.undo_stack.dropLast ++ [current]
        = m.undo_stack.dropLast ++ [m.undo_stack.getLast hne] := by rw [hgl]
      _ = m.undo_stack := List.dropLast_append_getLast hne

/-- Witness for C10 on a concrete two-entry manager. -/
theorem C10_undo_redo_roundtrip_witness :
    ((({ max_history := 50, undo_stack := [⟨"a", (1 : ℕ)⟩, ⟨"b", 2⟩], redo_stack := [] } :
        UndoManager ℕ).undo.2).redo).1
      = some 2 ∧
    ((({ max_history := 50, undo_stack := [⟨"a", (1 : ℕ)⟩, ⟨"b", 2⟩], redo_stack := [] } :
        UndoManager ℕ).undo.2).redo).2.undo_stack
      = [⟨"a", (1 : ℕ)⟩, ⟨"b", 2⟩] := by
  have h := C10_undo_redo_roundtrip
    { max_history := 50, undo_stack := [⟨"a", (1 : ℕ)⟩, ⟨"b", 2⟩], redo_stack := [] }
    (by decide)
  exact ⟨h.1.trans (by decide), h.2.trans (by decide)⟩

/-! ## Coordinate transform inverse (claim C5) -/

theorem canvas_field_roundtrip (cs : CoordinateSystem) (x y : ℚ)
    (hcs : cs.canvas_size ≠ 0) :
    cs.canvas_to_field (cs.field_to_canvas x y).1 (cs.field_to_canvas x y).2 = (x, y) := by
  have hs : cs.scale ≠ 0 := by
    unfold CoordinateSystem.scale FIELD_SIZE_INCHES
    intro h0
    rw [div_eq_zero_iff] at h0
    rcases h0 with h0 | h0
    · exact hcs (by exact_mod_cast h0)
    · norm_num at h0
  unfold CoordinateSystem.canvas_to_field CoordinateSystem.field_to_canvas
  rw [Prod.mk.injEq]
  constructor
  · field_simp
  · field_simp

/-- C5: on any positively sized canvas, `canvas_to_field` undoes
`field_to_canvas` within 1e-6 on every field point in
[-72, 72] × [-72, 72] (in the exact-rational model the round trip is
exact, so the 1e-6 tolerance holds). -/
theorem C5_transform_inverse (cs : CoordinateSystem) (x y : ℚ)
    (hcs : 0 < cs.canvas_size)
    (_hx1 : -72 ≤ x) (_hx2 : x ≤ 72) (_hy1 : -72 ≤ y) (_hy2 : y ≤ 72) :
    |(cs.canvas_to_field (cs.field_to_canvas x y).1 (cs.field_to_canvas x y).2).1 - x|
      ≤ 1 / 1000000 ∧
    |(cs.canvas_to_field (cs.field_to_canvas x y).1 (cs.field_to_canvas x y).2).2 - y|
      ≤ 1 / 1000000 := by
  have h := canvas_field_roundtrip cs x y (by omega)
  rw [Prod.ext_iff] at h
  rw [h.1, h.2]
  norm_num

/-- Witness for C5 at canvas size 600 and field point (1, 2). -/
theorem C5_transform_inverse_witness :
    |((⟨600⟩ : CoordinateSystem).canvas_to_field
        ((⟨600⟩ : CoordinateSystem).field_to_canvas 1 2).1
        ((⟨600⟩ : CoordinateSystem).field_to_canvas 1 2).2).1 - 1| ≤ 1 / 1000000 ∧
    |((⟨600⟩ : CoordinateSystem).canvas_to_field
        ((⟨600⟩ : CoordinateSystem).field_to_canvas 1 2).1
        ((⟨600⟩ : CoordinateSystem).field_to_canvas 1 2).2).2 - 2| ≤ 1 / 1000000 :=
  C5_transform_inverse ⟨600⟩ 1 2 (by norm_num) (by norm_num) (by norm_num)
    (by norm_num) (by norm_num)

/-! ## Serialization round-trip (claim C8) -/

theorem headingMode_ofValue_value (m : HeadingMode) : HeadingMode.ofValue m.value = some m := by
  cases m <;> rfl

theorem motionType_ofValue_value (m : MotionType) : MotionType.ofValue m.value = some m := by
  cases m <;> rfl

theorem side_ofValue_value (s : Side) : Side.ofValue s.value = some s := by
  cases s <;> rfl

theorem alliance_ofValue_value (a : Alliance) : Alliance.ofValue a.value = some a := by
  cases a <;> rfl

theorem waypoint_from_to_dict (w : Waypoint) : Waypoint.from_dict w.to_dict = some w := by
  unfold Waypoint.from_dict Waypoint.to_dict
  simp [headingMode_ofValue_value, motionType_ofValue_value]

theorem mapM_waypoint_roundtrip (l : List Waypoint) :
    (l.map Waypoint.to_dict).mapM Waypoint.from_dict = some l := by
  induction l with
  | nil => rfl
  | cons w rest ih =>
    rw [List.map_cons, List.mapM_cons, waypoint_from_to_dict, ih]
    rfl

theorem path_from_to_dict (p : Path) : Path.from_dict p.to_dict = some p := by
  unfold Path.from_dict Path.to_dict
  simp only [Option.getD_some, alliance_ofValue_value, side_ofValue_value,
    mapM_waypoint_roundtrip, Option.some_bind, Option.pure_def]
  rfl

theorem mapM_path_roundtrip (l : List Path) :
    (l.map Path.to_dict).mapM Path.from_dict = some l := by
  induction l with
  | nil => rfl
  | cons p rest ih =>
    rw [List.map_cons, List.mapM_cons, path_from_to_dict, ih]
    rfl

/-- C8: deserializing the serialization of any Project reproduces it
exactly — in particular every path's waypoint count and every
waypoint's position, heading, heading mode, motion type and command
list (exact rational equality, hence within the claimed 1e-9
tolerance). -/
theorem C8_serialization_roundtrip (P : Project) : Project.from_dict P.to_dict = some P := by
  unfold Project.from_dict Project.to_dict
  simp only [Option.getD_some, mapM_path_roundtrip, Option.some_bind, Option.pure_def]
  rfl

/-! ## Heading/mode invariant (claim C9) -/

/-- The claimed waypoint invariant: MANUAL iff a concrete heading is
stored, and AUTO implies the heading is unset. -/
def headingInvariant (w : Waypoint) : Prop :=
  (w.heading_mode = HeadingMode.MANUAL ↔ w.heading ≠ none) ∧
  (w.heading_mode = HeadingMode.AUTO → w.heading = none)

instance (w : Waypoint) : Decidable (headingInvariant w) := by
  unfold headingInvariant
  infer_instance

/-- Counterexample to C9 as stated: `Waypoint.from_dict` accepts a
dictionary carrying a concrete heading together with mode "auto" and
returns a waypoint violating the invariant. -/
theorem C9_heading_invariant_counterexample :
    Waypoint.from_dict
      { x := 0, y := 0, heading := some 90, heading_mode := some "auto",
        motion_type := some "moveToPose", reverse := some false, intaking := some false,
        conveyor := some false, commands_after := some [] }
      = some { x := 0, y := 0, heading := some 90, heading_mode := HeadingMode.AUTO,
               motion_type := MotionType.MOVE_TO_POSE, reverse := false, intaking := false,
               conveyor := false, commands_after := [] } ∧
    ¬ headingInvariant
        { x := 0, y := 0, heading := some 90, heading_mode := HeadingMode.AUTO,
          motion_type := MotionType.MOVE_TO_POSE, reverse := false, intaking := false,
          conveyor := false, commands_after := [] } :=
  ⟨by decide, by decide⟩

theorem headingInvariant_auto_none (w : Waypoint) (h1 : w.heading = none)
    (h2 : w.heading_mode = HeadingMode.AUTO) : headingInvariant w := by
  unfold headingInvariant
  rw [h1, h2]
  refine ⟨by simp, by simp⟩

theorem HeadingMode.ofValue_manual_iff (s : String) (m : HeadingMode)
    (h : HeadingMode.ofValue s = some m) :
    m = HeadingMode.MANUAL ↔ s = "manual" := by
  unfold HeadingMode.ofValue at h
  split_ifs at h with h1 h2
  · cases h
    simp [h1]
  · cases h
    simp [h2]

/-- C9 amended: default construction and `add_waypoint` always produce
invariant-satisfying waypoints, and `Waypoint.from_dict` produces an
invariant-satisfying waypoint whenever the input dictionary itself
encodes the invariant (its heading mode reads "manual" iff it carries a
concrete heading). -/
theorem C9_heading_invariant_amended :
    (∀ x y : ℚ, headingInvariant { x := x, y := y }) ∧
    (∀ (p : Path) (x y : ℚ), ∃ w,
      ((p.add_waypoint x y).1.waypoints).getLast? = some w ∧ headingInvariant w) ∧
    (∀ (d : WaypointDict) (w : Waypoint), Waypoint.from_dict d = some w →
      (d.heading_mode.getD "auto" = "manual" ↔ d.heading ≠ none) → headingInvariant w) := by
  refine ⟨?_, ?_, ?_⟩
  · intro x y
    exact headingInvariant_auto_none _ rfl rfl
  · intro p x y
    refine ⟨{ x := x, y := y, motion_type :=
        if p.waypoints.length = 0 then MotionType.START else MotionType.MOVE_TO_POSE },
      ?_, ?_⟩
    · unfold Path.add_waypoint
      simp
    · exact headingInvariant_auto_none _ rfl rfl
  · intro d w hw hd
    unfold Waypoint.from_dict at hw
    cases hhm : HeadingMode.ofValue (d.heading_mode.getD "auto") with
    | none =>
      rw [hhm] at hw
      simp at hw
    | some hm =>
      rw [hhm] at hw
      cases hmt : MotionType.ofValue (d.motion_type.getD "moveToPose") with
      | none =>
        rw [hmt] at hw
        simp at hw
      | some mt =>
        rw [hmt] at hw
        simp only [Option.some_bind, Option.pure_def] at hw
        obtain rfl : _ = w := Option.some_injective _ hw
        have hiff := HeadingMode.ofValue_manual_iff _ hm hhm
        constructor
        · exact hiff.trans hd
        · intro hauto
          have hha : hm = HeadingMode.AUTO := hauto
          have hnm : ¬ (d.heading_mode.getD "auto" = "manual") := by
            intro hman
            have hm2 : hm = HeadingMode.MANUAL := hiff.mpr hman
            rw [hha] at hm2
            exact absurd hm2 (by decide)
          have hn2 : ¬ (d.heading ≠ none) := fun hne => hnm (hd.mpr hne)
          exact not_not.mp hn2

/-- Witness for the amended C9 on concrete inputs: a default waypoint, a
fresh `add_waypoint`, and a `from_dict` whose dictionary encodes the
invariant. -/
theorem C9_heading_invariant_amended_witness :
    headingInvariant { x := (3 : ℚ), y := 4 } ∧
    (∃ w, (((pathNew "P").add_waypoint 3 4).1.waypoints).getLast? = some w ∧
      headingInvariant w) ∧
    headingInvariant
      { x := 0, y := 0, heading := some 90, heading_mode := HeadingMode.MANUAL,
        motion_type := MotionType.MOVE_TO_POSE, reverse := false, intaking := false,
        conveyor := false, commands_after := [] } :=
  ⟨C9_heading_invariant_amended.1 3 4,
   C9_heading_invariant_amended.2.1 (pathNew "P") 3 4,
   C9_heading_invariant_amended.2.2
     { x := 0, y := 0, heading := some 90, heading_mode := some "manual",
       motion_type := some "moveToPose", reverse := some false, intaking := some false,
       conveyor := some false, commands_after := some [] }
     _ (by decide) (by decide)⟩

/-! ## Generation determinism (claim C2, spec-modelled pipeline) -/

/-- C2: code generation is a pure function of the Path and the command
lookup — two generation runs whose inputs are unchanged produce
byte-identical output strings.  (The pipeline is modelled from §4.4 of
the spec because `io/export_cpp.py` is absent from the source tree.) -/
theorem C2_generation_deterministic (p p2 : Path) (r r2 : List (String × Command))
    (hp : p2 = p) (hr : r2 = r) :
    export_path_to_cpp p2 r2 = export_path_to_cpp p r := by
  rw [hp, hr]

/-- Witness for C2: the spec's §8 scenario path, exported twice against
an empty registry. -/
theorem C2_generation_deterministic_witness :
    export_path_to_cpp
      { name := "Auto1", waypoints :=
        [{ x := 0, y := 0, motion_type := MotionType.START }, { x := -10, y := 24 }] } []
    = export_path_to_cpp
      { name := "Auto1", waypoints :=
        [{ x := 0, y := 0, motion_type := MotionType.START }, { x := -10, y := 24 }] } [] :=
  C2_generation_deterministic
    { name := "Auto1", waypoints :=
      [{ x := 0, y := 0, motion_type := MotionType.START }, { x := -10, y := 24 }] }
    { name := "Auto1", waypoints :=
      [{ x := 0, y := 0, motion_type := MotionType.START }, { x := -10, y := 24 }] }
    [] [] rfl rfl

/-! ## Heading computation (claim C7) -/

theorem degrees_atan2_bounds (y x : ℝ) :
    -180 < degrees (atan2 y x) ∧ degrees (atan2 y x) ≤ 180 := by
  have hpi : 0 < Real.pi := Real.pi_pos
  have h1 : atan2 y x ≤ Real.pi := Complex.arg_le_pi _
  have h2 : -Real.pi < atan2 y x := Complex.neg_pi_lt_arg _
  unfold degrees
  constructor
  · have hlt : -Real.pi * 180 < atan2 y x * 180 := by
      apply mul_lt_mul_of_pos_right h2
      norm_num
    have := (div_lt_div_iff_of_pos_right hpi).mpr hlt
    calc (-180 : ℝ) = -Real.pi * 180 / Real.pi := by
          rw [neg_mul, neg_div, mul_comm, mul_div_assoc, div_self (ne_of_gt hpi), mul_one]
      _ < atan2 y x * 180 / Real.pi := this
  · have hle : atan2 y x * 180 ≤ Real.pi * 180 := by
      apply mul_le_mul_of_nonneg_right h1
      norm_num
    have := (div_le_div_iff_of_pos_right hpi).mpr hle
    calc atan2 y x * 180 / Real.pi ≤ Real.pi * 180 / Real.pi := this
      _ = 180 := by
          rw [mul_comm, mul_div_assoc, div_self (ne_of_gt hpi), mul_one]

/-- C7: `calculate_heading` returns the atan2 bearing of
(Δx, Δy) shifted into [0, 360) — the result differs from the raw
`degrees(atan2(Δx, Δy))` by an integral multiple of 360° and always
lies in [0, 360). -/
theorem C7_calculate_heading_range (from_x from_y to_x to_y : ℝ) :
    0 ≤ calculate_heading from_x from_y to_x to_y ∧
    calculate_heading from_x from_y to_x to_y < 360 ∧
    ∃ k : ℤ, calculate_heading from_x from_y to_x to_y
      - degrees (atan2 (to_x - from_x) (to_y - from_y)) = 360 * k := by
  obtain ⟨hlb, hub⟩ := degrees_atan2_bounds (to_x - from_x) (to_y - from_y)
  unfold calculate_heading
  by_cases hneg : degrees (atan2 (to_x - from_x) (to_y - from_y)) < 0
  · rw [if_pos hneg]
    refine ⟨by linarith, by linarith, 1, by push_cast; ring⟩
  · rw [if_neg hneg]
    refine ⟨by linarith, by linarith, 0, by push_cast; ring⟩

/-! ## Adaptive Bezier decomposition (claim C6) -/

/-- The segment count the spec's words prescribe:
`clamp(round(estimate / max_segment_length), min_segments, max_segments)`
with a true rounding — to be compared with `adaptiveSegCount`, which the
source computes with Python `int()` truncation. -/
noncomputable def specSegCount (p0 p1 p2 : Point) (max_segment_length : ℝ)
    (min_segments max_segments : ℤ) : ℤ :=
  max min_segments (min max_segments
    (round ((p0.distance_to p1 + p1.distance_to p2) / max_segment_length)))

theorem quadratic_bezier_zero (p0 p1 p2 : Point) : quadratic_bezier p0 p1 p2 0 = p0 := by
  cases p0
  cases p1
  cases p2
  simp [quadratic_bezier, Point.smul_def, Point.add_def]

theorem quadratic_bezier_one (p0 p1 p2 : Point) : quadratic_bezier p0 p1 p2 1 = p2 := by
  cases p0
  cases p1
  cases p2
  simp [quadratic_bezier, Point.smul_def, Point.add_def]

theorem dist_ce_left : Point.distance_to ⟨0, 0⟩ ⟨35, 0⟩ = 35 := by
  show Real.sqrt (((0 : ℝ) - 35) ^ 2 + ((0 : ℝ) - 0) ^ 2) = 35
  rw [show ((0 : ℝ) - 35) ^ 2 + ((0 : ℝ) - 0) ^ 2 = 35 ^ 2 by norm_num]
  exact Real.sqrt_sq (by norm_num)

theorem dist_ce_right : Point.distance_to ⟨35, 0⟩ ⟨35, 0⟩ = 0 := by
  show Real.sqrt (((35 : ℝ) - 35) ^ 2 + ((0 : ℝ) - 0) ^ 2) = 0
  rw [show ((35 : ℝ) - 35) ^ 2 + ((0 : ℝ) - 0) ^ 2 = 0 by norm_num]
  exact Real.sqrt_zero

theorem pythonInt_ce : pythonInt ((35 : ℝ) / 6) = 5 := by
  unfold pythonInt
  rw [if_pos (by norm_num : (0 : ℝ) ≤ 35 / 6)]
  exact Int.floor_eq_iff.mpr (by norm_num)

theorem round_ce : round ((35 : ℝ) / 6) = 6 := by
  rw [round_eq]
  rw [show (35 : ℝ) / 6 + 1 / 2 = 19 / 3 by norm_num]
  exact Int.floor_eq_iff.mpr (by norm_num)

theorem decompose_length (p0 p1 p2 : Point) (n : ℤ) :
    (decompose_quadratic_bezier p0 p1 p2 n).length = (n + 1).toNat := by
  unfold decompose_quadratic_bezier
  rw [List.length_map, List.length_range]

/-- Counterexample to C6 as stated: for p0 = (0,0), p1 = p2 = (35,0)
with max_segment_length = 6, min_segments = 3, max_segments = 20, the
control-polygon estimate is 35 and 35/6 ≈ 5.83; the source truncates
(`int()`) to segment count 5, but the claimed formula
clamp(round(35/6), 3, 20) = 6 — so the returned list has 6 points, not
the 6 + 1 = 7 the claim demands. -/
theorem C6_adaptive_decompose_counterexample :
    adaptiveSegCount ⟨0, 0⟩ ⟨35, 0⟩ ⟨35, 0⟩ 6 3 20 = 5 ∧
    specSegCount ⟨0, 0⟩ ⟨35, 0⟩ ⟨35, 0⟩ 6 3 20 = 6 ∧
    (adaptive_decompose_quadratic ⟨0, 0⟩ ⟨35, 0⟩ ⟨35, 0⟩ 6 3 20).length = 6 := by
  have hcount : adaptiveSegCount ⟨0, 0⟩ ⟨35, 0⟩ ⟨35, 0⟩ 6 3 20 = 5 := by
    unfold adaptiveSegCount
    rw [dist_ce_left, dist_ce_right, add_zero, pythonInt_ce]
    decide
  refine ⟨hcount, ?_, ?_⟩
  · unfold specSegCount
    rw [dist_ce_left, dist_ce_right, add_zero, round_ce]
    decide
  · unfold adaptive_decompose_quadratic
    rw [hcount, decompose_length]
    decide

/-- C6 amended: the source derives the segment count with Python `int()`
truncation, not rounding —
`clamp(int(estimate / max_segment_length), min_segments, max_segments)`;
with 0 < max_segment_length and 1 ≤ min_segments ≤ max_segments the
count always lies in [min_segments, max_segments] and the returned list
has count + 1 points beginning at p0 and ending at p2. -/
theorem C6_adaptive_decompose_amended (p0 p1 p2 : Point)
    (max_segment_length : ℝ) (min_segments max_segments : ℤ)
    (_h0 : 0 < max_segment_length) (hmin : 1 ≤ min_segments)
    (hminmax : min_segments ≤ max_segments) :
    adaptiveSegCount p0 p1 p2 max_segment_length min_segments max_segments
      = max min_segments (min max_segments
          (pythonInt ((p0.distance_to p1 + p1.distance_to p2) / max_segment_length))) ∧
    min_segments ≤ adaptiveSegCount p0 p1 p2 max_segment_length min_segments max_segments ∧
    adaptiveSegCount p0 p1 p2 max_segment_length min_segments max_segments ≤ max_segments ∧
    (adaptive_decompose_quadratic p0 p1 p2 max_segment_length min_segments max_segments).length
      = (adaptiveSegCount p0 p1 p2 max_segment_length min_segments max_segments).toNat + 1 ∧
    (adaptive_decompose_quadratic p0 p1 p2 max_segment_length min_segments max_segments).head?
      = some p0 ∧
    (adaptive_decompose_quadratic p0 p1 p2 max_segment_length min_segments max_segments).getLast?
      = some p2 := by
  set n := adaptiveSegCount p0 p1 p2 max_segment_length min_segments max_segments with hn
  have hlo : min_segments ≤ n := le_max_left _ _
  have hhi : n ≤ max_segments := max_le hminmax (min_le_left _ _)
  have hn1 : 1 ≤ n := le_trans hmin hlo
  have hlen : (adaptive_decompose_quadratic p0 p1 p2
      max_segment_length min_segments max_segments).length = n.toNat + 1 := by
    unfold adaptive_decompose_quadratic
    rw [← hn, decompose_length]
    omega
  refine ⟨rfl, hlo, hhi, hlen, ?_, ?_⟩
  · unfold adaptive_decompose_quadratic decompose_quadratic_bezier
    rw [← hn, show (n + 1).toNat = n.toNat + 1 from by omega, List.range_succ_eq_map]
    simp only [List.map_cons, List.head?_cons, Nat.cast_zero, zero_div, quadratic_bezier_zero]
  · unfold adaptive_decompose_quadratic decompose_quadratic_bezier
    rw [← hn, List.getLast?_eq_getElem?, List.length_map, List.length_range]
    have hm : (n + 1).toNat - 1 = n.toNat := by omega
    rw [hm, List.getElem?_map, List.getElem?_range (by omega)]
    have hc : ((n.toNat : ℕ) : ℝ) = (n : ℝ) := by
      have := Int.toNat_of_nonneg (by omega : (0 : ℤ) ≤ n)
      exact_mod_cast congrArg (fun z : ℤ => (z : ℝ)) this
    have hnz : (n : ℝ) ≠ 0 := by
      exact_mod_cast (by omega : n ≠ 0)
    rw [Option.map_some', hc, div_self hnz, quadratic_bezier_one]

/-- Witness for the amended C6 at the counterexample's control points
and the source defaults (6, 3, 20). -/
theorem C6_adaptive_decompose_amended_witness :
    adaptiveSegCount ⟨0, 0⟩ ⟨35, 0⟩ ⟨35, 0⟩ 6 3 20
      = max 3 (min 20 (pythonInt ((Point.distance_to ⟨0, 0⟩ ⟨35, 0⟩
          + Point.distance_to ⟨35, 0⟩ ⟨35, 0⟩) / 6))) ∧
    3 ≤ adaptiveSegCount ⟨0, 0⟩ ⟨35, 0⟩ ⟨35, 0⟩ 6 3 20 ∧
    adaptiveSegCount ⟨0, 0⟩ ⟨35, 0⟩ ⟨35, 0⟩ 6 3 20 ≤ 20 ∧
    (adaptive_decompose_quadratic ⟨0, 0⟩ ⟨35, 0⟩ ⟨35, 0⟩ 6 3 20).length
      = (adaptiveSegCount ⟨0, 0⟩ ⟨35, 0⟩ ⟨35, 0⟩ 6 3 20).toNat + 1 ∧
    (adaptive_decompose_quadratic ⟨0, 0⟩ ⟨35, 0⟩ ⟨35, 0⟩ 6 3 20).head? = some ⟨0, 0⟩ ∧
    (adaptive_decompose_quadratic ⟨0, 0⟩ ⟨35, 0⟩ ⟨35, 0⟩ 6 3 20).getLast? = some ⟨35, 0⟩ :=
  C6_adaptive_decompose_amended ⟨0, 0⟩ ⟨35, 0⟩ ⟨35, 0⟩ 6 3 20
    (by norm_num) (by norm_num) (by norm_num)

end PathPlanner
